import Mathlib

/-!
Verification of the attendance calculator of the bunk-buzz backend.

The arithmetic lives in the `Subject` model virtuals
(`src/models/Subject.js`: `attendancePercentage`, `classesNeeded`, `safeBunks`),
in the bunk-predictor controller (`src/controllers/profileController.js`:
`predictBunk`, `simulateBunks`) and in the attendance controller
(`src/controllers/attendanceController.js`: `markAttendance`, `deleteAttendance`).

Counters are embedded as natural numbers, the minimum-attendance threshold and
all percentages as rationals.  JavaScript `Number(x.toFixed(2))` is embedded as
rounding to two decimal places with ties rounded up, which agrees with
`toFixed` on the non-negative values arising here.  The unbounded `while`
loops of the source are embedded as fuelled recursions returning `Option ℕ`:
`none` means the fuel ran out, and a loop that diverges in the source returns
`none` for every fuel.
-/

namespace BunkBuzz

/-- Two-decimal rounding, the model of JavaScript `Number(x.toFixed(2))`
for the non-negative values occurring in this program. -/
def round2 (x : ℚ) : ℚ := (round (x * 100) : ℚ) / 100

/-- The `attendancePercentage` virtual of `src/models/Subject.js`:
`if (totalLectures === 0) return 0;` then
`Number(((attendedLectures / totalLectures) * 100).toFixed(2))`. -/
def attendancePercentage (attended total : ℕ) : ℚ :=
  if total = 0 then 0 else round2 ((attended : ℚ) / (total : ℚ) * 100)

/-- The `while` loop of the `safeBunks` virtual, fuelled.  The source runs
`while ((attended / (total + bunks + 1)) * 100 >= minimum) bunks++;`. -/
def safeBunksGo (attended total : ℕ) (minimum : ℚ) : ℕ → ℕ → Option ℕ
  | 0, _ => none
  | fuel + 1, bunks =>
    if (attended : ℚ) / ((total : ℚ) + (bunks : ℚ) + 1) * 100 ≥ minimum then
      safeBunksGo attended total minimum fuel (bunks + 1)
    else
      some bunks

/-- The `safeBunks` virtual of `src/models/Subject.js`:
return `0` if the (rounded) current percentage is below the minimum,
otherwise run the bunk-counting loop. -/
def safeBunks (attended total : ℕ) (minimum : ℚ) (fuel : ℕ) : Option ℕ :=
  if attendancePercentage attended total < minimum then some 0
  else safeBunksGo attended total minimum fuel 0

/-- The `while` loop of the `classesNeeded` virtual, fuelled.  The source runs
`while (((attended + needed + 1) / (total + needed + 1)) * 100 < minimum) needed++;`. -/
def classesNeededGo (attended total : ℕ) (minimum : ℚ) : ℕ → ℕ → Option ℕ
  | 0, _ => none
  | fuel + 1, needed =>
    if ((attended : ℚ) + (needed : ℚ) + 1) / ((total : ℚ) + (needed : ℚ) + 1) * 100 < minimum then
      classesNeededGo attended total minimum fuel (needed + 1)
    else
      some needed

/-- The `classesNeeded` virtual of `src/models/Subject.js`:
return `0` if the (rounded) current percentage already meets the minimum,
otherwise run the loop and return `needed + 1`. -/
def classesNeeded (attended total : ℕ) (minimum : ℚ) (fuel : ℕ) : Option ℕ :=
  if minimum ≤ attendancePercentage attended total then some 0
  else (classesNeededGo attended total minimum fuel 0).map (· + 1)

/-- `afterBunkPercentage` of `predictBunk` in `src/controllers/profileController.js`:
`Number(((attended / (total + 1)) * 100).toFixed(2))`. -/
def afterBunkPercentage (attended total : ℕ) : ℚ :=
  round2 ((attended : ℚ) / ((total : ℚ) + 1) * 100)

/-- `canBunk` of `predictBunk`: `afterBunkPercentage >= minAttendance`. -/
def canBunk (attended total : ℕ) (minimum : ℚ) : Bool :=
  afterBunkPercentage attended total ≥ minimum

/-- The recovery loop of `predictBunk`, fuelled.  `totalAfterBunk` is the
source's `total = subject.totalLectures + 1`; the source runs
`while (((attended + c + 1) / (totalAfterBunk + c + 1)) * 100 < minAttendance) c++;`. -/
def recoverGo (attended totalAfterBunk : ℕ) (minimum : ℚ) : ℕ → ℕ → Option ℕ
  | 0, _ => none
  | fuel + 1, c =>
    if ((attended : ℚ) + (c : ℚ) + 1) / ((totalAfterBunk : ℚ) + (c : ℚ) + 1) * 100 < minimum then
      recoverGo attended totalAfterBunk minimum fuel (c + 1)
    else
      some c

/-- `classesNeededToRecover` of `predictBunk`: `0` when `canBunk`, otherwise the
recovery loop against the post-bunk total followed by `classesNeededToRecover++`. -/
def classesNeededToRecover (attended total : ℕ) (minimum : ℚ) (fuel : ℕ) : Option ℕ :=
  if canBunk attended total minimum then some 0
  else (recoverGo attended (total + 1) minimum fuel 0).map (· + 1)

/-- One record pushed by the `simulateBunks` loop of
`src/controllers/profileController.js` (the `status` string is determined by
`isSafe` and is omitted). -/
structure SimStep where
  bunkNumber : ℕ
  totalLectures : ℕ
  attendedLectures : ℕ
  attendance : ℚ
  isSafe : Bool
  deriving Repr, DecidableEq

/-- The record built at iteration `i` (1-based) of the `simulateBunks` loop:
the running total is `total + i`, `attended` is unchanged. -/
def simStep (attended total : ℕ) (minimum : ℚ) (i : ℕ) : SimStep :=
  { bunkNumber := i
    totalLectures := total + i
    attendedLectures := attended
    attendance := round2 ((attended : ℚ) / ((total : ℚ) + (i : ℚ)) * 100)
    isSafe := decide (round2 ((attended : ℚ) / ((total : ℚ) + (i : ℚ)) * 100) ≥ minimum) }

/-- The `simulation` array of `simulateBunks`:
`for (let i = 1; i <= numberOfBunks; i++) { total += 1; ... push(record) }`. -/
def simulate (attended total : ℕ) (minimum : ℚ) (numberOfBunks : ℕ) : List SimStep :=
  (List.range numberOfBunks).map (fun j => simStep attended total minimum (j + 1))

/-- `simulation.findIndex((s) => !s.isSafe)` with `-1` embedded as `none`. -/
def firstUnsafeIdx : List SimStep → Option ℕ
  | [] => none
  | s :: rest => if s.isSafe then (firstUnsafeIdx rest).map (· + 1) else some 0

/-- `analysis.turningPoint` of `simulateBunks`:
`turningPoint === -1 ? null : turningPoint + 1`. -/
def analysisTurningPoint (sim : List SimStep) : Option ℕ :=
  (firstUnsafeIdx sim).map (· + 1)

/-- The `numberOfBunks` guards of `simulateBunks`:
`if (!numberOfBunks || numberOfBunks < 1) return 400; if (numberOfBunks > 50) return 400;`,
restricted to integer inputs (`!n` is true exactly for `n = 0` among integers). -/
def numberOfBunksAccepted (n : ℤ) : Bool :=
  if n = 0 ∨ n < 1 then false
  else if n > 50 then false
  else true

/-- The status of a `DailyAttendance` record (`src/models/DailyAttendance.js`,
`enum: ['present', 'absent']`). -/
inductive AttendanceStatus where
  | present
  | absent
  deriving Repr, DecidableEq

/-- The lecture counters of a `Subject` document that `markAttendance` and
`deleteAttendance` mutate. -/
structure SubjectCounters where
  totalLectures : ℤ
  attendedLectures : ℤ
  deriving Repr, DecidableEq

/-- The counter updates of the create branch of `markAttendance`
(`src/controllers/attendanceController.js`):
`subject.totalLectures += 1; if (status === 'present') subject.attendedLectures += 1;`. -/
def markAttendanceCreate (c : SubjectCounters) (status : AttendanceStatus) : SubjectCounters :=
  { totalLectures := c.totalLectures + 1
    attendedLectures :=
      if status = AttendanceStatus.present then c.attendedLectures + 1 else c.attendedLectures }

/-- The counter updates of `deleteAttendance`
(`src/controllers/attendanceController.js`):
`subject.totalLectures -= 1; if (attendance.status === 'present') subject.attendedLectures -= 1;`. -/
def deleteAttendanceCounters (c : SubjectCounters) (status : AttendanceStatus) : SubjectCounters :=
  { totalLectures := c.totalLectures - 1
    attendedLectures :=
      if status = AttendanceStatus.present then c.attendedLectures - 1 else c.attendedLectures }

/-- Modelled from the spec (refinement comparison for the safeBunks closed form):
"the largest integer `b` with `b <= attended*100/minimum - total - 1`,
clamped to `>= 0`". -/
def specClosedFormSafeBunks (attended total : ℕ) (minimum : ℚ) : ℤ :=
  max 0 ⌊(attended : ℚ) * 100 / minimum - (total : ℚ) - 1⌋

/-- Divergence of the `safeBunks` virtual at given counters: the loop returns no
result no matter how much fuel it is given. -/
def safeBunksDiverges (attended total : ℕ) (minimum : ℚ) : Prop :=
  ∀ fuel, safeBunks attended total minimum fuel = none

/-! ## Basic facts about two-decimal rounding -/

theorem round2_mono {x y : ℚ} (h : x ≤ y) : round2 x ≤ round2 y := by
  unfold round2
  have hr : round (x * 100) ≤ round (y * 100) := by
    rw [round_eq, round_eq]
    exact Int.floor_mono (by linarith)
  have : ((round (x * 100) : ℤ) : ℚ) ≤ ((round (y * 100) : ℤ) : ℚ) := by exact_mod_cast hr
  linarith

theorem round2_natCast (k : ℕ) : round2 ((k : ℕ) : ℚ) = (k : ℚ) := by
  unfold round2
  rw [show ((k : ℚ) * 100) = (((k * 100 : ℕ) : ℤ) : ℚ) by push_cast; ring, round_intCast]
  push_cast
  field_simp

theorem le_round2 {k : ℕ} {x : ℚ} (h : (k : ℚ) ≤ x) : (k : ℚ) ≤ round2 x := by
  calc (k : ℚ) = round2 (k : ℚ) := (round2_natCast k).symm
    _ ≤ round2 x := round2_mono h

theorem round2_le {k : ℕ} {x : ℚ} (h : x ≤ (k : ℚ)) : round2 x ≤ (k : ℚ) := by
  calc round2 x ≤ round2 (k : ℚ) := round2_mono h
    _ = (k : ℚ) := round2_natCast k

/-! ## Arithmetic form of the loop conditions -/

theorem safeBunksCond_iff (a t b m : ℕ) :
    ((a : ℚ) / ((t : ℚ) + (b : ℚ) + 1) * 100 ≥ (m : ℚ)) ↔ m * (t + b + 1) ≤ a * 100 := by
  have hpos : (0 : ℚ) < (t : ℚ) + (b : ℚ) + 1 := by positivity
  rw [ge_iff_le, div_mul_eq_mul_div, le_div_iff₀ hpos,
    show ((m : ℚ) * ((t : ℚ) + (b : ℚ) + 1)) = (((m * (t + b + 1) : ℕ) : ℚ)) by push_cast; ring,
    show ((a : ℚ) * 100) = (((a * 100 : ℕ) : ℚ)) by push_cast; ring,
    Nat.cast_le]

theorem classesNeededCond_iff (a t n m : ℕ) :
    (((a : ℚ) + (n : ℚ) + 1) / ((t : ℚ) + (n : ℚ) + 1) * 100 < (m : ℚ)) ↔
      (a + n + 1) * 100 < m * (t + n + 1) := by
  have hpos : (0 : ℚ) < (t : ℚ) + (n : ℚ) + 1 := by positivity
  rw [div_mul_eq_mul_div, div_lt_iff₀ hpos,
    show (((a : ℚ) + (n : ℚ) + 1) * 100) = (((a + n + 1) * 100 : ℕ) : ℚ) by push_cast; ring,
    show ((m : ℚ) * ((t : ℚ) + (n : ℚ) + 1)) = ((m * (t + n + 1) : ℕ) : ℚ) by push_cast; ring,
    Nat.cast_lt]

theorem exactPctCond_iff (a t m : ℕ) (ht : 0 < t) :
    ((a : ℚ) / (t : ℚ) * 100 < (m : ℚ)) ↔ a * 100 < m * t := by
  have hpos : (0 : ℚ) < (t : ℚ) := by exact_mod_cast ht
  rw [div_mul_eq_mul_div, div_lt_iff₀ hpos,
    show ((a : ℚ) * 100) = ((a * 100 : ℕ) : ℚ) by push_cast; ring,
    show ((m : ℚ) * (t : ℚ)) = ((m * t : ℕ) : ℚ) by push_cast; ring,
    Nat.cast_lt]

/-! ## Characterisation of the fuelled loops -/

theorem safeBunksGo_eq_of (a t : ℕ) (m : ℚ) (k : ℕ)
    (hk : ¬ ((a : ℚ) / ((t : ℚ) + (k : ℚ) + 1) * 100 ≥ m))
    (hsafe : ∀ i, i < k → (a : ℚ) / ((t : ℚ) + (i : ℚ) + 1) * 100 ≥ m) :
    ∀ fuel b, b ≤ k → k < b + fuel → safeBunksGo a t m fuel b = some k := by
  intro fuel
  induction fuel with
  | zero => intro b hb hlt; omega
  | succ f ih =>
    intro b hb hlt
    by_cases hbk : b = k
    · subst hbk
      simp only [safeBunksGo, if_neg hk]
    · have hblt : b < k := lt_of_le_of_ne hb hbk
      have hcond := hsafe b hblt
      simp only [safeBunksGo, if_pos hcond]
      exact ih (b + 1) hblt (by omega)

theorem classesNeededGo_eq_of (a t : ℕ) (m : ℚ) (k : ℕ)
    (hk : ¬ (((a : ℚ) + (k : ℚ) + 1) / ((t : ℚ) + (k : ℚ) + 1) * 100 < m))
    (hneed : ∀ i, i < k → ((a : ℚ) + (i : ℚ) + 1) / ((t : ℚ) + (i : ℚ) + 1) * 100 < m) :
    ∀ fuel b, b ≤ k → k < b + fuel → classesNeededGo a t m fuel b = some k := by
  intro fuel
  induction fuel with
  | zero => intro b hb hlt; omega
  | succ f ih =>
    intro b hb hlt
    by_cases hbk : b = k
    · subst hbk
      simp only [classesNeededGo, if_neg hk]
    · have hblt : b < k := lt_of_le_of_ne hb hbk
      have hcond := hneed b hblt
      simp only [classesNeededGo, if_pos hcond]
      exact ih (b + 1) hblt (by omega)

theorem recoverGo_eq_classesNeededGo (a t : ℕ) (m : ℚ) :
    ∀ fuel c, recoverGo a t m fuel c = classesNeededGo a t m fuel c := by
  intro fuel
  induction fuel with
  | zero => intro c; rfl
  | succ f ih =>
    intro c
    simp only [recoverGo, classesNeededGo, ih]

/-- For an integer minimum `1 ≤ m`, the `safeBunks` loop terminates within
`attended * 100 + 1` iterations and computes `attended * 100 / m - total`
(truncated subtraction, i.e. clamped to `0`). -/
theorem safeBunks_eq_div (a t m : ℕ) (ha : a ≤ t) (hm : 1 ≤ m) :
    safeBunks a t (m : ℚ) (a * 100 + 1) = some (a * 100 / m - t) := by
  have hm0 : 0 < m := hm
  have hD1 : m * (a * 100 / m) ≤ a * 100 := Nat.mul_div_le (a * 100) m
  have hD2 : a * 100 < m * (a * 100 / m + 1) := by
    have hmod := Nat.div_add_mod (a * 100) m
    have hlt : a * 100 % m < m := Nat.mod_lt _ hm0
    calc a * 100 = m * (a * 100 / m) + a * 100 % m := hmod.symm
      _ < m * (a * 100 / m) + m := by omega
      _ = m * (a * 100 / m + 1) := by ring
  -- the loop condition fails for the first time at `k = a * 100 / m - t`
  have hk : ¬ ((a : ℚ) / ((t : ℚ) + ((a * 100 / m - t : ℕ) : ℚ) + 1) * 100 ≥ (m : ℚ)) := by
    rw [safeBunksCond_iff]
    intro hle
    have h1 : a * 100 / m + 1 ≤ t + (a * 100 / m - t) + 1 := by omega
    have h2 : m * (a * 100 / m + 1) ≤ m * (t + (a * 100 / m - t) + 1) :=
      Nat.mul_le_mul_left m h1
    omega
  have hsafe : ∀ i, i < a * 100 / m - t →
      (a : ℚ) / ((t : ℚ) + (i : ℚ) + 1) * 100 ≥ (m : ℚ) := by
    intro i hi
    rw [safeBunksCond_iff]
    have h1 : t + i + 1 ≤ a * 100 / m := by omega
    have h2 : m * (t + i + 1) ≤ m * (a * 100 / m) := Nat.mul_le_mul_left m h1
    omega
  by_cases hg : attendancePercentage a t < (m : ℚ)
  · -- the guard returns 0; here the exact percentage is below `m`, so the
    -- closed form is 0 as well
    have hDt : a * 100 / m - t = 0 := by
      rcases Nat.eq_zero_or_pos t with ht | ht
      · subst ht
        have ha0 : a = 0 := by omega
        subst ha0
        simp
      · have hcomm : m * t = t * m := Nat.mul_comm m t
        have hexact : a * 100 < m * t := by
          by_contra hcon
          push_neg at hcon
          have hle : (m : ℚ) ≤ (a : ℚ) / (t : ℚ) * 100 := by
            by_contra hlt
            push_neg at hlt
            rw [exactPctCond_iff a t m ht] at hlt
            omega
          have : (m : ℚ) ≤ attendancePercentage a t := by
            unfold attendancePercentage
            rw [if_neg (by omega)]
            exact le_round2 hle
          exact absurd hg (by push_neg; exact this)
        have : a * 100 / m < t := by
          rw [Nat.div_lt_iff_lt_mul hm0]
          omega
        omega
    rw [hDt]
    unfold safeBunks
    rw [if_pos hg]
  · unfold safeBunks
    rw [if_neg hg]
    refine safeBunksGo_eq_of a t (m : ℚ) (a * 100 / m - t) hk hsafe (a * 100 + 1) 0
      (Nat.zero_le _) ?_
    have : a * 100 / m ≤ a * 100 := Nat.div_le_self _ _
    omega

/-- For an integer minimum `m ≤ 99`, the `classesNeeded` loop terminates within
`99 * total + 1` iterations. -/
theorem classesNeeded_terminates (a t m : ℕ) (hm : m ≤ 99) :
    ∃ r, classesNeeded a t (m : ℚ) (99 * t + 1) = some r := by
  by_cases hg : (m : ℚ) ≤ attendancePercentage a t
  · exact ⟨0, by unfold classesNeeded; rw [if_pos hg]⟩
  · have hwit : ¬ ((a + 99 * t + 1) * 100 < m * (t + 99 * t + 1)) := by
      have h1 : m * (t + 99 * t + 1) ≤ 99 * (t + 99 * t + 1) :=
        Nat.mul_le_mul_right _ hm
      omega
    have hex : ∃ i, ¬ ((a + i + 1) * 100 < m * (t + i + 1)) := ⟨99 * t, hwit⟩
    have hkmin : ∀ i, i < Nat.find hex → (a + i + 1) * 100 < m * (t + i + 1) := by
      intro i hi
      have := Nat.find_min hex hi
      omega
    have hkle : Nat.find hex ≤ 99 * t := Nat.find_le hwit
    refine ⟨Nat.find hex + 1, ?_⟩
    unfold classesNeeded
    rw [if_neg hg]
    rw [classesNeededGo_eq_of a t (m : ℚ) (Nat.find hex) ?hk ?hmin (99 * t + 1) 0
      (Nat.zero_le _) (by omega)]
    · rfl
    case hk =>
      rw [classesNeededCond_iff]
      exact Nat.find_spec hex
    case hmin =>
      intro i hi
      rw [classesNeededCond_iff]
      exact hkmin i hi

/-- The `classesNeeded` loop condition always holds when `attended = 0`,
`total = 1`, `minimum = 100`, so the loop exhausts any fuel. -/
theorem classesNeededGo_unreachable : ∀ fuel n, classesNeededGo 0 1 (100 : ℚ) fuel n = none := by
  intro fuel
  induction fuel with
  | zero => intro n; rfl
  | succ f ih =>
    intro n
    have hcond : (((0 : ℕ) : ℚ) + (n : ℚ) + 1) / (((1 : ℕ) : ℚ) + (n : ℚ) + 1) * 100 < 100 := by
      have hpos : (0 : ℚ) < ((1 : ℕ) : ℚ) + (n : ℚ) + 1 := by positivity
      rw [div_mul_eq_mul_div, div_lt_iff₀ hpos]
      push_cast
      linarith
    simp only [classesNeededGo, if_pos hcond, ih]

/-- The `safeBunks` loop condition always holds when `minimum = 0`, so the loop
exhausts any fuel. -/
theorem safeBunksGo_minimum_zero : ∀ fuel b, safeBunksGo 1 1 (0 : ℚ) fuel b = none := by
  intro fuel
  induction fuel with
  | zero => intro b; rfl
  | succ f ih =>
    intro b
    have hcond : ((1 : ℕ) : ℚ) / (((1 : ℕ) : ℚ) + (b : ℚ) + 1) * 100 ≥ 0 := by positivity
    simp only [safeBunksGo, if_pos hcond, ih]

/-! ## Claim C1 -/

/-- Claim C1, counterexample to the claim as stated: at
`attended = 38, total = 40, minimum = 75` the iterative `safeBunks` loop
returns `10`, while the spec's closed form
"largest `b` with `b ≤ attended*100/minimum - total - 1`, clamped to `≥ 0`"
gives `9`. -/
theorem safeBunks_closed_form_claim_cex :
    safeBunks 38 40 ((75 : ℕ) : ℚ) (38 * 100 + 1) = some 10 ∧
    specClosedFormSafeBunks 38 40 ((75 : ℕ) : ℚ) = 9 := by
  constructor
  · have h := safeBunks_eq_div 38 40 75 (by norm_num) (by norm_num)
    rw [h]
  · unfold specClosedFormSafeBunks
    norm_num

/-- Claim C1 (amended): for integer inputs with `0 ≤ attended ≤ total` and
`minimum` in `[1, 100]`, the iterative `safeBunks` loop terminates and equals
the corrected closed form `attended * 100 / minimum - total` (integer division,
truncated subtraction clamping at `0`) — one more than the closed form stated
in the spec; at `minimum = 0` the loop diverges instead of producing a value. -/
theorem safeBunks_iter_eq_closed_form (a t m : ℕ) (ha : a ≤ t) (hm1 : 1 ≤ m)
    (hm2 : m ≤ 100) :
    safeBunks a t (m : ℚ) (a * 100 + 1) = some (a * 100 / m - t) := by
  have hmm := hm2
  exact safeBunks_eq_div a t m ha hm1

/-- Witness for C1's amended theorem at `attended = 38, total = 40, minimum = 75`. -/
theorem safeBunks_iter_eq_closed_form_witness :
    (38 ≤ 40 ∧ 1 ≤ 75 ∧ 75 ≤ 100) ∧
    safeBunks 38 40 ((75 : ℕ) : ℚ) (38 * 100 + 1) = some (38 * 100 / 75 - 40) :=
  ⟨⟨by norm_num, by norm_num, by norm_num⟩,
    safeBunks_iter_eq_closed_form 38 40 75 (by norm_num) (by norm_num) (by norm_num)⟩

/-! ## Claim C2 -/

/-- Claim C2: the claim (and the spec) require a distinct sentinel instead of an
infinite loop when `minimum = 100` and attendance is not already at 100%; the
code has no such guard and its `classesNeeded` loop never terminates there.
At `attended = 0, total = 1, minimum = 100` the fuelled loop returns `none`
for every fuel. -/
theorem classesNeeded_minimum100_diverges :
    ∀ fuel, classesNeeded 0 1 (100 : ℚ) fuel = none := by
  intro fuel
  unfold classesNeeded
  rw [if_neg ?hg]
  · rw [classesNeededGo_unreachable]
    rfl
  case hg =>
    have h01 : attendancePercentage 0 1 = 0 := by
      unfold attendancePercentage round2
      rw [if_neg (by norm_num)]
      rw [round_eq]
      norm_num
    rw [h01]
    norm_num

/-! ## Claim C3 -/

/-- Claim C3, counterexample to the claim as stated: `minimum = 0` is a valid
input (`minimum ∈ [0,100]`), yet the `safeBunks` loop at
`attended = 1, total = 1, minimum = 0` returns no result for any amount of
fuel — the source loop never terminates there. -/
theorem calculator_termination_cex : safeBunksDiverges 1 1 0 := by
  intro fuel
  unfold safeBunks
  rw [if_neg ?hg]
  · exact safeBunksGo_minimum_zero fuel 0
  case hg =>
    have h11 : attendancePercentage 1 1 = 100 := by
      unfold attendancePercentage round2
      rw [if_neg (by norm_num)]
      rw [round_eq]
      norm_num
    rw [h11]
    norm_num

/-- Claim C3 (amended): with valid counters, `percentage` and `simulate` always
terminate (`simulate` producing exactly `bunkCount ≤ 50` steps); the iterative
searches terminate for every integer minimum with `1 ≤ minimum` (for
`safeBunks`, which diverges at `minimum = 0`) resp. `minimum ≤ 99` (for
`classesNeeded`, which diverges at `minimum = 100` when below 100%). -/
theorem calculator_termination (a t m : ℕ) (ha : a ≤ t) (hm : m ≤ 100) :
    (1 ≤ m → ∃ r, safeBunks a t (m : ℚ) (a * 100 + 1) = some r) ∧
    (m ≤ 99 → ∃ r, classesNeeded a t (m : ℚ) (99 * t + 1) = some r) ∧
    (∀ n, n ≤ 50 → (simulate a t (m : ℚ) n).length = n) := by
  refine ⟨fun hm1 => ⟨a * 100 / m - t, safeBunks_eq_div a t m ha hm1⟩,
    fun hm99 => classesNeeded_terminates a t m hm99,
    fun n _ => ?_⟩
  simp [simulate]

/-- Witness for C3's amended theorem at `attended = 30, total = 40, minimum = 75`. -/
theorem calculator_termination_witness :
    (30 ≤ 40 ∧ 75 ≤ 100) ∧ ∃ r, safeBunks 30 40 ((75 : ℕ) : ℚ) (30 * 100 + 1) = some r :=
  ⟨⟨by norm_num, by norm_num⟩,
    (calculator_termination 30 40 75 (by norm_num) (by norm_num)).1 (by norm_num)⟩

/-! ## Claim C4 -/

/-- Claim C4, counterexample to the claim as stated: the operations perform no
input validation at all.  With `attended = 5 > total = 3` — an `InvalidInput`
case per the claim — the percentage operation does not fail but returns the
ordinary numeric result `166.67`. -/
theorem operations_invalid_input_cex :
    (3 : ℕ) < 5 ∧ attendancePercentage 5 3 = 16667 / 100 := by
  refine ⟨by norm_num, ?_⟩
  unfold attendancePercentage round2
  rw [if_neg (by norm_num), round_eq]
  norm_num

/-- Claim C4 (amended): the calculator operations validate none of
`attended`, `total`, `minimum` (only `simulate` checks its `bunkCount`); on
invalid counters they return plain numeric results computed by the same
formulas — e.g. for `attended > total > 0` the percentage is an ordinary
rounded value, and it is at least 100. -/
theorem operations_no_input_validation (a t : ℕ) (ht : t ≠ 0) (hat : t < a) :
    attendancePercentage a t = round2 ((a : ℚ) / (t : ℚ) * 100) ∧
    (100 : ℚ) ≤ attendancePercentage a t := by
  have hform : attendancePercentage a t = round2 ((a : ℚ) / (t : ℚ) * 100) := by
    unfold attendancePercentage
    rw [if_neg ht]
  refine ⟨hform, ?_⟩
  rw [hform]
  have hpos : (0 : ℚ) < (t : ℚ) := by
    exact_mod_cast Nat.pos_of_ne_zero ht
  have hle : ((100 : ℕ) : ℚ) ≤ (a : ℚ) / (t : ℚ) * 100 := by
    rw [div_mul_eq_mul_div, le_div_iff₀ hpos]
    have hca : (t : ℚ) + 1 ≤ (a : ℚ) := by exact_mod_cast hat
    push_cast
    linarith
  have := le_round2 hle
  exact_mod_cast this

/-- Witness for C4's amended theorem at `attended = 5, total = 3`. -/
theorem operations_no_input_validation_witness :
    ((3 : ℕ) ≠ 0 ∧ (3 : ℕ) < 5) ∧
    (attendancePercentage 5 3 = round2 (((5 : ℕ) : ℚ) / ((3 : ℕ) : ℚ) * 100) ∧
      (100 : ℚ) ≤ attendancePercentage 5 3) :=
  ⟨⟨by norm_num, by norm_num⟩,
    operations_no_input_validation 5 3 (by norm_num) (by norm_num)⟩

/-! ## Claim C5 -/

/-- The rounded after-bunk percentage of `predictBunk` coincides with the
`attendancePercentage` virtual evaluated at the post-bunk total. -/
theorem afterBunk_eq_pct (a t : ℕ) :
    afterBunkPercentage a t = attendancePercentage a (t + 1) := by
  unfold afterBunkPercentage attendancePercentage
  rw [if_neg (Nat.succ_ne_zero t)]
  push_cast
  ring_nf

/-- Claim C5, counterexample to the claim as stated: at
`attended = 2, total = 3, minimum = 75` the bunk is unsafe
(`afterBunk = 50 < 75`), the code's `classesNeededToRecover` is `4`, which
already equals `classesNeeded(attended, total + 1, minimum) = 4`; the claim's
`classesNeeded(attended, total + 1, minimum) + 1 = 5` does not match. -/
theorem recover_increment_cex :
    canBunk 2 3 (75 : ℚ) = false ∧
    classesNeededToRecover 2 3 (75 : ℚ) 10 = some 4 ∧
    (classesNeeded 2 4 (75 : ℚ) 10).map (· + 1) = some 5 := by
  have hcb : canBunk 2 3 (75 : ℚ) = false := by
    unfold canBunk afterBunkPercentage round2
    rw [round_eq]
    norm_num
  have hgo : classesNeededGo 2 4 (75 : ℚ) 10 0 = some 3 := by
    rw [classesNeededGo_eq_of 2 4 (75 : ℚ) 3 ?hk ?hmin 10 0 (by norm_num) (by norm_num)]
    case hk => norm_num
    case hmin =>
      intro i hi
      interval_cases i <;> norm_num
  refine ⟨hcb, ?_, ?_⟩
  · unfold classesNeededToRecover
    rw [hcb]
    simp only [Bool.false_eq_true, if_false]
    rw [show (3 : ℕ) + 1 = 4 from rfl, recoverGo_eq_classesNeededGo, hgo]
    rfl
  · have hguard : ¬ ((75 : ℚ) ≤ attendancePercentage 2 4) := by
      unfold attendancePercentage round2
      rw [if_neg (by norm_num), round_eq]
      norm_num
    unfold classesNeeded
    rw [if_neg hguard, hgo]
    rfl

/-- Claim C5 (amended): whenever the bunk is unsafe
(`canBunk = false`, i.e. the rounded after-bunk percentage is below the
minimum), `classesNeededToRecover` equals `classesNeeded` evaluated against the
post-bunk totals, `classesNeeded(attended, total + 1, minimum)`, with no
further increment: the code's trailing `++` is the same one `classesNeeded`
itself applies. -/
theorem recover_eq_classesNeeded_post_bunk (a t : ℕ) (m : ℚ) (fuel : ℕ)
    (h : canBunk a t m = false) :
    classesNeededToRecover a t m fuel = classesNeeded a (t + 1) m fuel := by
  have hn : ¬ (afterBunkPercentage a t ≥ m) := by
    simpa [canBunk] using h
  have hguard : ¬ (m ≤ attendancePercentage a (t + 1)) := by
    rw [← afterBunk_eq_pct]
    exact hn
  unfold classesNeededToRecover classesNeeded
  rw [h]
  simp only [Bool.false_eq_true, if_false, if_neg hguard]
  rw [recoverGo_eq_classesNeededGo]

/-- Witness for C5's amended theorem at `attended = 2, total = 3, minimum = 75`. -/
theorem recover_eq_classesNeeded_post_bunk_witness :
    canBunk 2 3 (75 : ℚ) = false ∧
    classesNeededToRecover 2 3 (75 : ℚ) 10 = classesNeeded 2 (3 + 1) (75 : ℚ) 10 := by
  have hcb : canBunk 2 3 (75 : ℚ) = false := by
    unfold canBunk afterBunkPercentage round2
    rw [round_eq]
    norm_num
  exact ⟨hcb, recover_eq_classesNeeded_post_bunk 2 3 (75 : ℚ) 10 hcb⟩

/-! ## Claim C6 -/

theorem simulate_getElem (a t : ℕ) (m : ℚ) (n i : ℕ) (h : i < n) :
    (simulate a t m n)[i]? = some (simStep a t m (i + 1)) := by
  simp [simulate, List.getElem?_map, List.getElem?_range, h]

theorem firstUnsafeIdx_eq_none (l : List SimStep) (h : ∀ s ∈ l, s.isSafe = true) :
    firstUnsafeIdx l = none := by
  induction l with
  | nil => rfl
  | cons x rest ih =>
    have hx : x.isSafe = true := h x (List.mem_cons_self x rest)
    have hrest : firstUnsafeIdx rest = none :=
      ih (fun s hs => h s (List.mem_cons_of_mem x hs))
    simp [firstUnsafeIdx, hx, hrest]

theorem firstUnsafeIdx_eq_some (l : List SimStep) :
    ∀ j s, l[j]? = some s → s.isSafe = false →
      (∀ i, i < j → ∀ s2, l[i]? = some s2 → s2.isSafe = true) →
      firstUnsafeIdx l = some j := by
  induction l with
  | nil => intro j s hj; simp at hj
  | cons x rest ih =>
    intro j s hj hunsafe hsafe
    cases j with
    | zero =>
      have hx : x = s := by simpa using hj
      subst hx
      simp [firstUnsafeIdx, hunsafe]
    | succ j0 =>
      have hx : x.isSafe = true := hsafe 0 (Nat.succ_pos j0) x (by simp)
      have hrest : firstUnsafeIdx rest = some j0 := by
        refine ih j0 s (by simpa using hj) hunsafe ?_
        intro i hi s2 hs2
        exact hsafe (i + 1) (by omega) s2 (by simpa using hs2)
      simp [firstUnsafeIdx, hx, hrest]

/-- Claim C6: for `1 ≤ bunkCount ≤ 50` and valid counters, `simulateBunks`
produces exactly `bunkCount` ordered records; the `i`-th record (0-based `i`)
carries `bunkNumber = i + 1`, the running total `total + (i + 1)`, the
unchanged `attended`, the rounded percentage at that step, and
`isSafe = (attendance ≥ minimum)`; the derived `turningPoint` is the 1-based
index of the first unsafe step and is `null` (here `none`) when every step is
safe. -/
theorem simulate_steps_spec (a t : ℕ) (m : ℚ) (n : ℕ) (h1 : 1 ≤ n) (h50 : n ≤ 50)
    (hat : a ≤ t) :
    (simulate a t m n).length = n ∧
    (∀ i, i < n → (simulate a t m n)[i]? = some
      { bunkNumber := i + 1
        totalLectures := t + (i + 1)
        attendedLectures := a
        attendance := round2 ((a : ℚ) / ((t : ℚ) + ((i : ℚ) + 1)) * 100)
        isSafe := decide (round2 ((a : ℚ) / ((t : ℚ) + ((i : ℚ) + 1)) * 100) ≥ m) }) ∧
    ((∀ i, i < n → m ≤ round2 ((a : ℚ) / ((t : ℚ) + ((i : ℚ) + 1)) * 100)) →
      analysisTurningPoint (simulate a t m n) = none) ∧
    (∀ j, j < n → ¬ (m ≤ round2 ((a : ℚ) / ((t : ℚ) + ((j : ℚ) + 1)) * 100)) →
      (∀ i, i < j → m ≤ round2 ((a : ℚ) / ((t : ℚ) + ((i : ℚ) + 1)) * 100)) →
      analysisTurningPoint (simulate a t m n) = some (j + 1)) := by
  have hstep : ∀ i : ℕ, simStep a t m (i + 1) =
      { bunkNumber := i + 1
        totalLectures := t + (i + 1)
        attendedLectures := a
        attendance := round2 ((a : ℚ) / ((t : ℚ) + ((i : ℚ) + 1)) * 100)
        isSafe := decide (round2 ((a : ℚ) / ((t : ℚ) + ((i : ℚ) + 1)) * 100) ≥ m) } := by
    intro i
    unfold simStep
    have hc : ((t : ℚ) + ((i + 1 : ℕ) : ℚ)) = ((t : ℚ) + ((i : ℚ) + 1)) := by
      push_cast
      ring
    rw [hc]
  have hsafeiff : ∀ i : ℕ, (simStep a t m (i + 1)).isSafe = true ↔
      m ≤ round2 ((a : ℚ) / ((t : ℚ) + ((i : ℚ) + 1)) * 100) := by
    intro i
    rw [hstep i]
    simp [ge_iff_le]
  refine ⟨by simp [simulate], ?_, ?_, ?_⟩
  · intro i hi
    rw [simulate_getElem a t m n i hi, hstep i]
  · intro hall
    unfold analysisTurningPoint
    rw [firstUnsafeIdx_eq_none]
    · rfl
    intro s hs
    rcases List.mem_map.mp hs with ⟨j, hjmem, rfl⟩
    have hj : j < n := List.mem_range.mp hjmem
    exact (hsafeiff j).mpr (hall j hj)
  · intro j hj hbad hgood
    unfold analysisTurningPoint
    rw [firstUnsafeIdx_eq_some (simulate a t m n) j (simStep a t m (j + 1))
      (simulate_getElem a t m n j hj) ?bad ?good]
    · rfl
    case bad =>
      rw [Bool.eq_false_iff]
      intro hcon
      exact hbad ((hsafeiff j).mp hcon)
    case good =>
      intro i hij s2 hs2
      have hin : i < n := by omega
      rw [simulate_getElem a t m n i hin] at hs2
      have hs2e : simStep a t m (i + 1) = s2 := by simpa using hs2
      rw [← hs2e]
      exact (hsafeiff i).mpr (hgood i hij)

/-- Witness for C6's theorem at
`attended = 10, total = 10, minimum = 75, bunkCount = 5`. -/
theorem simulate_steps_spec_witness :
    (1 ≤ 5 ∧ 5 ≤ 50 ∧ 10 ≤ 10) ∧ (simulate 10 10 (75 : ℚ) 5).length = 5 :=
  ⟨⟨by norm_num, by norm_num, by norm_num⟩,
    (simulate_steps_spec 10 10 (75 : ℚ) 5 (by norm_num) (by norm_num) (by norm_num)).1⟩

/-! ## Claim C7 -/

/-- Claim C7: `percentage` returns `0` for `total = 0` (in particular
`percentage(0,0) = 0`), otherwise the two-decimal rounding of
`attended / total * 100`; for valid counters the result lies in `[0, 100]`. -/
theorem attendancePercentage_spec (a t : ℕ) (h : a ≤ t) :
    0 ≤ attendancePercentage a t ∧ attendancePercentage a t ≤ 100 ∧
    attendancePercentage 0 0 = 0 ∧
    (t = 0 → attendancePercentage a t = 0) ∧
    (t ≠ 0 → attendancePercentage a t = round2 ((a : ℚ) / (t : ℚ) * 100)) := by
  have hzero : ∀ u : ℕ, u = 0 → attendancePercentage a u = 0 := by
    intro u hu
    subst hu
    unfold attendancePercentage
    rw [if_pos rfl]
  rcases Nat.eq_zero_or_pos t with ht | ht
  · refine ⟨?_, ?_, ?_, fun _ => hzero t ht, fun hc => absurd ht hc⟩
    · rw [hzero t ht]
    · rw [hzero t ht]; norm_num
    · unfold attendancePercentage; rw [if_pos rfl]
  · have htne : t ≠ 0 := by omega
    have hform : attendancePercentage a t = round2 ((a : ℚ) / (t : ℚ) * 100) := by
      unfold attendancePercentage
      rw [if_neg htne]
    have hpos : (0 : ℚ) < (t : ℚ) := by exact_mod_cast ht
    have hx0 : ((0 : ℕ) : ℚ) ≤ (a : ℚ) / (t : ℚ) * 100 := by positivity
    have hx100 : (a : ℚ) / (t : ℚ) * 100 ≤ ((100 : ℕ) : ℚ) := by
      rw [div_mul_eq_mul_div, div_le_iff₀ hpos]
      have hca : (a : ℚ) ≤ (t : ℚ) := by exact_mod_cast h
      push_cast
      linarith
    refine ⟨?_, ?_, ?_, fun hc => absurd hc htne, fun _ => hform⟩
    · rw [hform]
      have := le_round2 hx0
      exact_mod_cast this
    · rw [hform]
      have := round2_le hx100
      exact_mod_cast this
    · unfold attendancePercentage; rw [if_pos rfl]

/-- Witness for C7's theorem at `attended = 3, total = 4`. -/
theorem attendancePercentage_spec_witness :
    (3 ≤ 4) ∧
    (0 ≤ attendancePercentage 3 4 ∧ attendancePercentage 3 4 ≤ 100 ∧
      attendancePercentage 0 0 = 0 ∧
      ((4 : ℕ) = 0 → attendancePercentage 3 4 = 0) ∧
      ((4 : ℕ) ≠ 0 → attendancePercentage 3 4 = round2 (((3 : ℕ) : ℚ) / ((4 : ℕ) : ℚ) * 100))) :=
  ⟨by norm_num, attendancePercentage_spec 3 4 (by norm_num)⟩

/-! ## Claim C8 -/

/-- Claim C8: `simulateBunks` accepts an integer `numberOfBunks` exactly when it
lies in `[1, 50]`; both guard branches reject everything outside. -/
theorem numberOfBunks_validation_iff (n : ℤ) :
    numberOfBunksAccepted n = true ↔ 1 ≤ n ∧ n ≤ 50 := by
  unfold numberOfBunksAccepted
  by_cases h1 : n = 0 ∨ n < 1
  · rw [if_pos h1]
    simp only [Bool.false_eq_true, false_iff]
    omega
  · rw [if_neg h1]
    by_cases h2 : n > 50
    · rw [if_pos h2]
      simp only [Bool.false_eq_true, false_iff]
      omega
    · rw [if_neg h2]
      simp only [true_iff]
      omega

/-! ## Claim C9 -/

/-- Claim C9: at `attended = 29999, total = 39999, minimum = 75` the exact
after-bunk percentage `29999/40000*100 = 74.9975` is below the minimum but
rounds up to `75.00`, so `predictBunk` reports `canBunk = true` while the
`safeBunks` loop (which compares unrounded values) reports `0` safe bunks. -/
theorem predict_rounding_inconsistency :
    (29999 : ℚ) / ((39999 : ℚ) + 1) * 100 < 75 ∧
    afterBunkPercentage 29999 39999 = 75 ∧
    canBunk 29999 39999 (75 : ℚ) = true ∧
    safeBunks 29999 39999 (75 : ℚ) (29999 * 100 + 1) = some 0 := by
  have habp : afterBunkPercentage 29999 39999 = 75 := by
    unfold afterBunkPercentage round2
    rw [round_eq]
    norm_num
  refine ⟨by norm_num, habp, ?_, ?_⟩
  · unfold canBunk
    rw [habp]
    norm_num
  · unfold safeBunks
    rw [if_neg ?hg]
    · rw [safeBunksGo_eq_of 29999 39999 (75 : ℚ) 0 ?hk ?hs (29999 * 100 + 1) 0
        le_rfl (by norm_num)]
      case hk => norm_num
      case hs => intro i hi; omega
    case hg =>
      have hcur : attendancePercentage 29999 39999 = 75 := by
        unfold attendancePercentage round2
        rw [if_neg (by norm_num), round_eq]
        norm_num
      rw [hcur]
      norm_num

/-! ## Claim C10 -/

/-- Claim C10: creating an attendance record on a date with no existing record
and then deleting it restores the subject's counters exactly, for either
status: creation adds 1 to `totalLectures` (and 1 to `attendedLectures` iff
present), deletion subtracts the same amounts. -/
theorem mark_then_delete_roundtrip (c : SubjectCounters) (s : AttendanceStatus) :
    deleteAttendanceCounters (markAttendanceCreate c s) s = c := by
  cases c with
  | mk tot att =>
    cases s <;> simp [markAttendanceCreate, deleteAttendanceCounters]

end BunkBuzz
